import Mathlib

/-!
Shallow embedding of the LSP behavioral-analytics core
(src/lsp_core/algorithm.py and src/lsp_core/models.py) and proofs about it.

Modelling conventions:
* Python floats are modelled as exact rationals where the source only uses
  field arithmetic and comparisons, and as real numbers where the source
  takes square roots (numpy std, euclidean distances).
* Python dicts and sets are modelled as association lists and lists, with
  insertion mirroring the defaultdict semantics of the source.
* `sorted` of Python is a stable sort; it is modelled by a stable insertion
  sort `sort_by`.
* Fields of the source records that the analysed code never reads
  (free-text descriptions, evidence payloads, wall-clock timestamps inside
  signals) are elided from the record types.
* Wall-clock time (`datetime.now()`) is passed in as an explicit `now`
  parameter; timestamps are rational seconds, `day` and `hour` are derived
  by flooring.
-/

/-- One fraud anomaly indicator, `models.FraudSignal`
(description, evidence and timestamp fields elided). -/
structure FraudSignal where
  signal_type : String
  severity : ℚ
deriving DecidableEq

/-- Aggregated fraud judgement, `models.FraudAssessment` (reasoning elided). -/
structure FraudAssessment where
  is_suspicious : Bool
  risk_score : ℚ
  signals : List FraudSignal
  recommendation : String
deriving DecidableEq

/-- Stable insertion of `x` into `l`: `x` goes in front of the first `y`
with `le x y`.  Together with `sort_by` this models the stable `sorted`
of Python. -/
def insert_sorted (le : α → α → Bool) (x : α) : List α → List α
  | [] => [x]
  | y :: ys => if le x y then x :: y :: ys else y :: insert_sorted le x ys

/-- Stable insertion sort, modelling Python `sorted` with comparison `le`. -/
def sort_by (le : α → α → Bool) : List α → List α
  | [] => []
  | x :: xs => insert_sorted le x (sort_by le xs)

theorem mem_insert_sorted (le : α → α → Bool) (x : α) (l : List α) (a : α) :
    a ∈ insert_sorted le x l ↔ a = x ∨ a ∈ l := by
  induction l with
  | nil => simp [insert_sorted]
  | cons y ys ih =>
    by_cases h : le x y = true
    · simp [insert_sorted, h]
    · simp only [insert_sorted, if_neg h, List.mem_cons, ih]
      tauto

theorem mem_sort_by (le : α → α → Bool) (l : List α) (a : α) :
    a ∈ sort_by le l ↔ a ∈ l := by
  induction l with
  | nil => simp [sort_by]
  | cons x xs ih => simp [sort_by, mem_insert_sorted, ih]

theorem length_insert_sorted (le : α → α → Bool) (x : α) (l : List α) :
    (insert_sorted le x l).length = l.length + 1 := by
  induction l with
  | nil => simp [insert_sorted]
  | cons y ys ih =>
    by_cases h : le x y = true
    · simp [insert_sorted, h]
    · simp [insert_sorted, h, ih]

theorem length_sort_by (le : α → α → Bool) (l : List α) :
    (sort_by le l).length = l.length := by
  induction l with
  | nil => rfl
  | cons x xs ih => simp [sort_by, length_insert_sorted, ih]

/-- Mapping commutes with stable insertion when the comparison factors
through the mapped value. -/
theorem map_insert_sorted (f : α → β) (le : α → α → Bool) (le' : β → β → Bool)
    (hc : ∀ a b, le a b = le' (f a) (f b)) (x : α) (l : List α) :
    (insert_sorted le x l).map f = insert_sorted le' (f x) (l.map f) := by
  induction l with
  | nil => simp [insert_sorted]
  | cons y ys ih =>
    by_cases h : le x y = true
    · simp [insert_sorted, h, ← hc]
    · simp [insert_sorted, h, ← hc, ih]

/-- Mapping commutes with the stable sort when the comparison factors
through the mapped value. -/
theorem map_sort_by (f : α → β) (le : α → α → Bool) (le' : β → β → Bool)
    (hc : ∀ a b, le a b = le' (f a) (f b)) (l : List α) :
    (sort_by le l).map f = sort_by le' (l.map f) := by
  induction l with
  | nil => simp [sort_by]
  | cons x xs ih => simp [sort_by, map_insert_sorted f le le' hc, ih]

/-- The positional weights of `FraudDetector._calculate_risk_score`. -/
def risk_weights : List ℚ := [1, 0.7, 0.5, 0.3, 0.2]

/-- `FraudDetector._calculate_risk_score`: sort the signals by severity
descending (stably), weight them positionally, and normalise by the weight
mass actually used, clamping at 1. -/
def calculate_risk_score (signals : List FraudSignal) : ℚ :=
  if signals = [] then 0
  else
    let sorted_signals := sort_by (fun a b => b.severity ≤ a.severity) signals
    let total_score :=
      (List.zipWith (fun s w => s.severity * w) sorted_signals risk_weights).sum
    let total_weight := (risk_weights.take sorted_signals.length).sum
    min (if 0 < total_weight then total_score / total_weight else 0) 1

/-- The recommendation thresholds of `assess_activity_authenticity`. -/
def recommendation_for (risk_score : ℚ) : String :=
  if 0.8 < risk_score then "block"
  else if 0.5 < risk_score then "review" else "allow"

/-- The risk aggregation formula exactly as the specification words it:
severities sorted descending, positional weights, weighted sum divided by
the used weight mass, clamped at 1, and 0 for no signals.  This is the spec
side of the refinement proof for the aggregation claim. -/
def risk_score_formula_spec (severities : List ℚ) : ℚ :=
  if severities = [] then 0
  else
    let sorted := sort_by (fun a b => b ≤ a) severities
    let used := risk_weights.take sorted.length
    min ((List.zipWith (· * ·) sorted risk_weights).sum / used.sum) 1

theorem sevs_weight_sum_nonneg (sigs : List FraudSignal) (ws : List ℚ)
    (hs : ∀ s ∈ sigs, 0 ≤ s.severity) (hw : ∀ w ∈ ws, 0 ≤ w) :
    0 ≤ (List.zipWith (fun s w => s.severity * w) sigs ws).sum := by
  induction sigs generalizing ws with
  | nil => simp
  | cons s ss ih =>
    cases ws with
    | nil => simp
    | cons w wws =>
      simp only [List.zipWith_cons_cons, List.sum_cons]
      have h1 : 0 ≤ s.severity * w :=
        mul_nonneg (hs s (by simp)) (hw w (by simp))
      have h2 : 0 ≤ (List.zipWith (fun s w => s.severity * w) ss wws).sum :=
        ih wws (fun x hx => hs x (by simp [hx])) (fun x hx => hw x (by simp [hx]))
      linarith

theorem zip_sum_map_severity (l : List FraudSignal) (ws : List ℚ) :
    (List.zipWith (fun s w => s.severity * w) l ws).sum =
      (List.zipWith (· * ·) (l.map FraudSignal.severity) ws).sum := by
  induction l generalizing ws with
  | nil => simp
  | cons x xs ih =>
    cases ws with
    | nil => simp
    | cons w wws => simp [ih]

theorem risk_weights_nonneg : ∀ w ∈ risk_weights, 0 ≤ w := by
  intro w hw
  simp only [risk_weights, List.mem_cons, List.not_mem_nil, or_false] at hw
  rcases hw with h | h | h | h | h <;> rw [h] <;> norm_num

theorem risk_weights_take_pos (n : ℕ) (hn : 1 ≤ n) :
    0 < (risk_weights.take n).sum := by
  match n, hn with
  | 1, _ => norm_num [risk_weights]
  | 2, _ => norm_num [risk_weights]
  | 3, _ => norm_num [risk_weights]
  | 4, _ => norm_num [risk_weights]
  | (m + 5), _ =>
    rw [List.take_of_length_le (by simp [risk_weights])]
    norm_num [risk_weights]

/-- Claim C5 — risk aggregation.  The computed score is the claimed formula
over the severity multiset; for severities in `[0,1]` it lies in `[0,1]`;
no signals give score `0` and recommendation `allow`; a single signal
scores exactly its own severity. -/
theorem riskScore_spec_c5 :
    (∀ signals : List FraudSignal,
      calculate_risk_score signals =
        risk_score_formula_spec (signals.map FraudSignal.severity)) ∧
    (∀ signals : List FraudSignal,
      (∀ s ∈ signals, 0 ≤ s.severity ∧ s.severity ≤ 1) →
        0 ≤ calculate_risk_score signals ∧ calculate_risk_score signals ≤ 1) ∧
    (calculate_risk_score [] = 0 ∧
      recommendation_for (calculate_risk_score []) = "allow") ∧
    (∀ sig : FraudSignal, 0 ≤ sig.severity → sig.severity ≤ 1 →
      calculate_risk_score [sig] = sig.severity) := by
  refine ⟨?_, ?_, ?_, ?_⟩
  · intro signals
    rcases eq_or_ne signals [] with h | h
    · subst h; rfl
    · have hmap : signals.map FraudSignal.severity ≠ [] := by simpa using h
      have hsort :
          (sort_by (fun a b : FraudSignal => b.severity ≤ a.severity) signals).map
              FraudSignal.severity =
            sort_by (fun a b : ℚ => b ≤ a) (signals.map FraudSignal.severity) :=
        map_sort_by FraudSignal.severity
          (fun a b : FraudSignal => b.severity ≤ a.severity)
          (fun a b : ℚ => b ≤ a) (fun _ _ => rfl) signals
      have hlen1 :
          (sort_by (fun a b : ℚ => b ≤ a) (signals.map FraudSignal.severity)).length =
            signals.length := by
        rw [length_sort_by, List.length_map]
      have hlen2 :
          (sort_by (fun a b : FraudSignal => b.severity ≤ a.severity) signals).length =
            signals.length := length_sort_by _ _
      have hpos : 0 < (risk_weights.take signals.length).sum :=
        risk_weights_take_pos _ (by
          rcases signals with _ | ⟨x, xs⟩
          · exact absurd rfl h
          · simp)
      have hzip :
          (List.zipWith (fun s w => s.severity * w)
              (sort_by (fun a b : FraudSignal => b.severity ≤ a.severity) signals)
              risk_weights).sum =
            (List.zipWith (· * ·)
              (sort_by (fun a b : ℚ => b ≤ a) (signals.map FraudSignal.severity))
              risk_weights).sum := by
        rw [← hsort, zip_sum_map_severity]
      simp only [calculate_risk_score, risk_score_formula_spec, if_neg h, if_neg hmap,
        hlen1, hlen2, hzip, if_pos hpos]
  · intro signals hsev
    constructor
    · simp only [calculate_risk_score]
      split
      · norm_num
      · refine le_min ?_ (by norm_num)
        split
        · rename_i hw
          refine div_nonneg ?_ (le_of_lt hw)
          refine sevs_weight_sum_nonneg _ _ ?_ risk_weights_nonneg
          intro s hs
          exact (hsev s ((mem_sort_by _ _ _).mp hs)).1
        · exact le_refl 0
    · simp only [calculate_risk_score]
      split
      · norm_num
      · exact min_le_right _ _
  · refine ⟨rfl, ?_⟩
    have h0 : calculate_risk_score [] = 0 := rfl
    rw [h0]
    norm_num [recommendation_for]
  · intro sig h0 h1
    have h : calculate_risk_score [sig] = min (sig.severity * 1 / 1) 1 := by
      simp [calculate_risk_score, sort_by, insert_sorted, risk_weights]
    rw [h, mul_one, div_one]
    exact min_eq_left h1

theorem riskScore_spec_c5_witness :
    (0 ≤ calculate_risk_score [⟨"velocity_violation", 0.7⟩] ∧
      calculate_risk_score [⟨"velocity_violation", 0.7⟩] ≤ 1) ∧
    calculate_risk_score [⟨"velocity_violation", 0.7⟩] = (0.7 : ℚ) :=
  ⟨riskScore_spec_c5.2.1 [⟨"velocity_violation", 0.7⟩]
      (by intro s hs; rw [List.mem_singleton] at hs; subst hs; norm_num),
   riskScore_spec_c5.2.2.2 ⟨"velocity_violation", 0.7⟩ (by norm_num) (by norm_num)⟩

/-- The per-user known-device sets `FraudDetector.device_fingerprints`,
a `defaultdict(set)` from user id to the set of device fingerprints,
modelled as an association list with list-valued sets. -/
def DeviceDB := List (String × List String)

/-- The known-device set of one user: `self.device_fingerprints.get(user_id, set())`. -/
def known_devices (uid : String) : DeviceDB → List String
  | [] => []
  | (u, ds) :: rest => if u = uid then ds else known_devices uid rest

/-- `self.device_fingerprints[user_id].add(fp)` with defaultdict semantics:
appends a fresh entry when the user has no set yet, set-inserts otherwise. -/
def add_device (uid fp : String) : DeviceDB → DeviceDB
  | [] => [(uid, [fp])]
  | (u, ds) :: rest =>
      if u = uid then (u, if fp ∈ ds then ds else ds ++ [fp]) :: rest
      else (u, ds) :: add_device uid fp rest

/-- The number of users whose known-device set holds the fingerprint:
`sum(1 for devices in self.device_fingerprints.values() if fp in devices)`. -/
def users_on_device (fp : String) (db : DeviceDB) : ℕ :=
  (db.filter (fun e => fp ∈ e.2)).length

/-- `FraudDetector._check_device_fingerprint`, with the SHA-256 fingerprint
of the context passed in precomputed.  Mirrors the early returns of the
source: a returned signal skips the recording step. -/
def check_device_fingerprint (uid fp : String) (db : DeviceDB) :
    Option FraudSignal × DeviceDB :=
  let known := known_devices uid db
  if fp ∉ known then
    if 3 < users_on_device fp db then
      (some ⟨"device_sharing", 0.8⟩, db)
    else if 0 < known.length then
      (some ⟨"new_device", 0.3⟩, db)
    else
      (none, add_device uid fp db)
  else
    (none, add_device uid fp db)

theorem mem_known_devices_add_device (uid fp : String) (db : DeviceDB) :
    fp ∈ known_devices uid (add_device uid fp db) := by
  induction db with
  | nil => simp [add_device, known_devices]
  | cons e rest ih =>
    obtain ⟨u, ds⟩ := e
    by_cases h : u = uid
    · subst h
      by_cases hfp : fp ∈ ds
      · simp [add_device, known_devices, hfp]
      · simp [add_device, known_devices, hfp]
    · simp [add_device, known_devices, h, ih]

/-- Claim C2 (amended) — the fingerprint is recorded into the known-device
set of the user exactly on the no-signal outcomes; when a `device_sharing`
or `new_device` signal is returned the store is left untouched. -/
theorem deviceFingerprint_recording_c2 (uid fp : String) (db : DeviceDB) :
    ((check_device_fingerprint uid fp db).1 = none →
      fp ∈ known_devices uid (check_device_fingerprint uid fp db).2) ∧
    ((check_device_fingerprint uid fp db).1 ≠ none →
      (check_device_fingerprint uid fp db).2 = db) := by
  unfold check_device_fingerprint
  by_cases hk : fp ∈ known_devices uid db
  · simp only [hk, not_true_eq_false, if_false]
    exact ⟨fun _ => mem_known_devices_add_device uid fp db, fun h => absurd rfl h⟩
  · simp only [hk, not_false_eq_true, if_true]
    by_cases hshare : 3 < users_on_device fp db
    · simp [hshare]
    · by_cases hnew : 0 < (known_devices uid db).length
      · simp [hshare, hnew]
      · simp only [if_neg hshare, if_neg hnew]
        exact ⟨fun _ => mem_known_devices_add_device uid fp db, fun h => absurd rfl h⟩

theorem deviceFingerprint_recording_c2_witness :
    "d1" ∈ known_devices "u1" (check_device_fingerprint "u1" "d1" []).2 :=
  (deviceFingerprint_recording_c2 "u1" "d1" []).1 (by decide)

/-- Claim C2, as frozen, is false: on a `new_device` outcome the source
returns before the recording line, so the fingerprint is not added.
Concrete run: user `u` already knows device `d0` and now appears on `d1`. -/
theorem deviceFingerprint_recording_c2_counterexample :
    (check_device_fingerprint "u" "d1" [("u", ["d0"])]).1 = some ⟨"new_device", 0.3⟩ ∧
    "d1" ∉ known_devices "u" (check_device_fingerprint "u" "d1" [("u", ["d0"])]).2 :=
  ⟨rfl, by decide⟩

/-- Claim C3 (amended) — a `device_sharing` signal of severity 0.8 fires on
first use exactly when the fingerprint is already known under more than 3
distinct users, i.e. on the 5th distinct user of the device, not the 4th. -/
theorem deviceSharing_threshold_c3 (uid fp : String) (db : DeviceDB)
    (hunseen : fp ∉ known_devices uid db)
    (hshared : 3 < users_on_device fp db) :
    (check_device_fingerprint uid fp db).1 = some ⟨"device_sharing", 0.8⟩ := by
  unfold check_device_fingerprint
  simp [hunseen, hshared]

theorem deviceSharing_threshold_c3_witness :
    (check_device_fingerprint "u5" "d"
      [("u1", ["d"]), ("u2", ["d"]), ("u3", ["d"]), ("u4", ["d"])]).1 =
        some ⟨"device_sharing", 0.8⟩ :=
  deviceSharing_threshold_c3 "u5" "d"
    [("u1", ["d"]), ("u2", ["d"]), ("u3", ["d"]), ("u4", ["d"])]
    (by decide) (by decide)

/-- Claim C3, as frozen, is false: with the fingerprint under exactly 3
distinct other users, the 4th user's first use yields no signal at all
(the source requires strictly more than 3 prior users). -/
theorem deviceSharing_threshold_c3_counterexample :
    "d" ∉ known_devices "u4" [("u1", ["d"]), ("u2", ["d"]), ("u3", ["d"])] ∧
    users_on_device "d" [("u1", ["d"]), ("u2", ["d"]), ("u3", ["d"])] = 3 ∧
    (check_device_fingerprint "u4" "d"
      [("u1", ["d"]), ("u2", ["d"]), ("u3", ["d"])]).1 = none := by
  decide

/-- `np.mean` over a list of values in a field (the callers guard emptiness
where the source does). -/
def list_mean {α : Type} [DivisionRing α] (l : List α) : α :=
  l.sum / l.length

/-- Bayesian point belief about one capability dimension,
`models.CapabilityEstimate`. -/
structure CapabilityEstimate where
  mean : ℚ
  variance : ℚ
  confidence : ℚ
deriving DecidableEq

/-- Python `dict.get(key, default)` over a string-keyed mapping. -/
def dict_get (m : List (String × ℚ)) (key : String) (dflt : ℚ) : ℚ :=
  match m with
  | [] => dflt
  | (k, v) :: rest => if k = key then v else dict_get rest key dflt

/-- `MultiDimensionalAssessor._extract_signal`: the mean of all supplied
performance metric values, 0.5 when none are supplied. -/
def extract_signal (performance : List (String × ℚ)) : ℚ :=
  if performance = [] then 0.5
  else list_mean (performance.map Prod.snd)

/-- `LanguageCapabilityAssessor._extract_signal`: accuracy is the primary
signal, defaulting to 0.5. -/
def extract_signal_language (performance : List (String × ℚ)) : ℚ :=
  dict_get performance "accuracy" 0.5

/-- `MultiDimensionalAssessor._bayesian_update`. -/
def bayesian_update (prior : CapabilityEstimate) (signal difficulty : ℚ) :
    CapabilityEstimate :=
  let signal_confidence := 0.3 + difficulty * 0.4
  let prior_weight := prior.confidence
  let signal_weight := signal_confidence
  let total_weight := prior_weight + signal_weight
  if total_weight = 0 then prior
  else
    { mean := (prior.mean * prior_weight + signal * signal_weight) / total_weight
      variance := prior.variance * (1 - signal_confidence * 0.1)
      confidence := min (prior.confidence + signal_confidence * 0.1) 0.95 }

/-- One graded response of `LanguageCapabilityAssessor.assess`
(`{'correct': bool, 'time_taken': float}`). -/
structure ResponseRecord where
  correct : Bool
  time_taken : ℚ
deriving DecidableEq

/-- `LanguageCapabilityAssessor._calculate_performance`. -/
def calculate_performance (user_responses : List ResponseRecord) :
    List (String × ℚ) :=
  if user_responses = [] then [("accuracy", 0), ("speed", 0)]
  else
    let accuracy :=
      ((user_responses.filter (·.correct)).length : ℚ) / user_responses.length
    let total_time := (user_responses.map (·.time_taken)).sum
    let speed :=
      if 0 < total_time then (user_responses.length : ℚ) / (total_time / 60) else 0
    [("accuracy", accuracy), ("speed", speed)]

/-- Claim C7 (amended) — a capability update keeps the mean in `[0,1]`
whenever the extracted scalar signal is itself in `[0,1]` (with nonnegative
prior confidence and difficulty), and the language-specialised signal
(accuracy) always is; the frozen claim fails for the generic extractor on
out-of-range metric values, see the counterexample. -/
theorem capabilityUpdate_mean_c7 :
    (∀ (prior : CapabilityEstimate) (signal difficulty : ℚ),
      0 ≤ prior.mean → prior.mean ≤ 1 → 0 ≤ prior.confidence →
      0 ≤ signal → signal ≤ 1 → 0 ≤ difficulty →
        0 ≤ (bayesian_update prior signal difficulty).mean ∧
        (bayesian_update prior signal difficulty).mean ≤ 1) ∧
    (∀ user_responses : List ResponseRecord,
      0 ≤ extract_signal_language (calculate_performance user_responses) ∧
      extract_signal_language (calculate_performance user_responses) ≤ 1) := by
  constructor
  · intro prior signal difficulty hm0 hm1 hc hs0 hs1 hd
    have hsc : (0 : ℚ) < 0.3 + difficulty * 0.4 := by
      have : (0 : ℚ) ≤ difficulty * 0.4 := mul_nonneg hd (by norm_num)
      linarith
    have htot : (0 : ℚ) < prior.confidence + (0.3 + difficulty * 0.4) := by
      linarith
    have hne : ¬(prior.confidence + (0.3 + difficulty * 0.4) = 0) := ne_of_gt htot
    simp only [bayesian_update, if_neg hne]
    constructor
    · refine div_nonneg ?_ htot.le
      have h1 : 0 ≤ prior.mean * prior.confidence := mul_nonneg hm0 hc
      have h2 : 0 ≤ signal * (0.3 + difficulty * 0.4) := mul_nonneg hs0 hsc.le
      linarith
    · rw [div_le_one htot]
      have h1 : prior.mean * prior.confidence ≤ prior.confidence := by
        nlinarith
      have h2 : signal * (0.3 + difficulty * 0.4) ≤ 0.3 + difficulty * 0.4 := by
        nlinarith
      linarith
  · intro user_responses
    rcases eq_or_ne user_responses [] with h | h
    · subst h
      norm_num [calculate_performance, extract_signal_language, dict_get]
    · have hlen : 0 < (user_responses.length : ℚ) := by
        have hp : 0 < user_responses.length := List.length_pos.mpr h
        exact_mod_cast hp
      simp only [calculate_performance, if_neg h, extract_signal_language, dict_get,
        if_pos rfl, ite_true]
      constructor
      · exact div_nonneg (Nat.cast_nonneg _) hlen.le
      · rw [div_le_one hlen]
        exact_mod_cast List.length_filter_le _ _
  
/-- Claim C7, as frozen, is false on the generic assessor: the weak prior
`{mean 0.3, variance 0.2, confidence 0.1}`, difficulty 0.5 and the
performance mapping `{quality_rating: 4.5, on_time_delivery: 1.0}` (taken
from the repository test suite) push the updated mean above 1. -/
theorem capabilityUpdate_mean_c7_counterexample :
    1 < (bayesian_update ⟨0.3, 0.2, 0.1⟩
          (extract_signal [("quality_rating", 4.5), ("on_time_delivery", 1)])
          0.5).mean := by
  have hne : ([("quality_rating", (4.5 : ℚ)), ("on_time_delivery", 1)] :
      List (String × ℚ)) ≠ [] := List.cons_ne_nil _ _
  simp only [extract_signal]
  rw [if_neg hne]
  norm_num [bayesian_update, list_mean]

theorem capabilityUpdate_mean_c7_witness :
    (0 ≤ (bayesian_update ⟨0.3, 0.2, 0.1⟩ 1 1).mean ∧
      (bayesian_update ⟨0.3, 0.2, 0.1⟩ 1 1).mean ≤ 1) ∧
    (0 ≤ extract_signal_language (calculate_performance [⟨true, 30⟩]) ∧
      extract_signal_language (calculate_performance [⟨true, 30⟩]) ≤ 1) :=
  ⟨capabilityUpdate_mean_c7.1 ⟨0.3, 0.2, 0.1⟩ 1 1 (by norm_num) (by norm_num)
      (by norm_num) (by norm_num) (by norm_num) (by norm_num),
   capabilityUpdate_mean_c7.2 [⟨true, 30⟩]⟩

/-- The capability dimensions tracked by the platform,
`models.CapabilityDimension`. -/
inductive CapabilityDimension where
  | knowledge_breadth | domain_depth | learning_speed | creativity
  | analytical_thinking | communication | collaboration | persistence
  | adaptability | reliability | emotional_intelligence | pattern_recognition
  | risk_tolerance
deriving DecidableEq

/-- One activity record, `models.ActivityEvent`, restricted to the two
fields the analysed algorithms read: the timestamp (rational seconds) and
the engagement level. -/
structure ActivityEvent where
  timestamp : ℚ
  engagement_level : ℚ
deriving DecidableEq

/-- Per-user aggregate, `models.InternalProfile`, restricted to the fields
the analysed algorithms read. -/
structure InternalProfile where
  user_id : String
  activity_history : List ActivityEvent
  capability_scores : List (CapabilityDimension × CapabilityEstimate)
deriving DecidableEq

/-- Sorting activities by timestamp, Python
`sorted(activities, key=lambda a: a.timestamp)`. -/
def sort_by_time (l : List ActivityEvent) : List ActivityEvent :=
  sort_by (fun a b => a.timestamp ≤ b.timestamp) l

/-- `WellbeingMonitor.max_daily_hours`, always 4.0. -/
def max_daily_hours : ℚ := 4

/-- The calendar day of a timestamp (`timestamp.date()`), as a day index. -/
def calendar_day (ts : ℚ) : ℤ := ⌊ts / 86400⌋

/-- A detected wellbeing concern, `models.WellbeingConcern`
(description, detection time and recommendations elided). -/
structure WellbeingConcern where
  concern_type : String
  severity : ℚ
deriving DecidableEq

/-- Full wellbeing judgement, `models.WellbeingAssessment`
(the always-empty positive-indicator list elided). -/
structure WellbeingAssessment where
  user_id : String
  timestamp : ℚ
  overall_score : ℚ
  concerns : List WellbeingConcern
  intervention_recommended : Bool
deriving DecidableEq

/-- The gap between two consecutive events in hours,
`(t2 - t1).total_seconds() / 3600`. -/
def gap_hours (p c : ActivityEvent) : ℚ := (c.timestamp - p.timestamp) / 3600

/-- `daily_hours[day] += duration` with defaultdict(float) semantics. -/
def add_daily_hours (d : ℤ) (v : ℚ) : List (ℤ × ℚ) → List (ℤ × ℚ)
  | [] => [(d, v)]
  | (d0, h) :: rest =>
      if d0 = d then (d0, h + v) :: rest
      else (d0, h) :: add_daily_hours d v rest

/-- The accumulation loop of `WellbeingMonitor._check_excessive_time`:
for each consecutive pair of the sorted activities, add the gap to the day
of the later event unless the gap reaches the daily-hour threshold. -/
def daily_hours_from (m : List (ℤ × ℚ))
    (pairs : List (ActivityEvent × ActivityEvent)) : List (ℤ × ℚ) :=
  pairs.foldl
    (fun m pc =>
      if gap_hours pc.1 pc.2 < max_daily_hours then
        add_daily_hours (calendar_day pc.2.timestamp) (gap_hours pc.1 pc.2) m
      else m) m

/-- `WellbeingMonitor._check_excessive_time`. -/
def check_excessive_time (recent_activities : List ActivityEvent) :
    Option WellbeingConcern :=
  let sorted_activities := sort_by_time recent_activities
  let daily := daily_hours_from [] (sorted_activities.zip sorted_activities.tail)
  let excessive_days := daily.filter (fun e => max_daily_hours < e.2)
  if excessive_days = [] then none
  else
    let avg_excessive_hours := list_mean (excessive_days.map Prod.snd)
    some ⟨"excessive_time",
      min ((avg_excessive_hours - max_daily_hours) / max_daily_hours) 1⟩

/-- `WellbeingMonitor.assess_wellbeing`, with `datetime.now()` passed in as
`now`. -/
def assess_wellbeing (now : ℚ) (user : InternalProfile) (recent_days : ℕ) :
    WellbeingAssessment :=
  let cutoff := now - (recent_days : ℚ) * 86400
  let recent_activities := user.activity_history.filter
    (fun a => decide (cutoff < a.timestamp))
  let concerns := (check_excessive_time recent_activities).toList
  let overall_score := max 0 (1 - (concerns.map WellbeingConcern.severity).sum)
  { user_id := user.user_id
    timestamp := now
    overall_score := overall_score
    concerns := concerns
    intervention_recommended := concerns.any (fun c => decide ((0.7 : ℚ) < c.severity)) }

/-- Spec side for the excessive-time claim: the engaged hours the claim
attributes to calendar day `d` — the sum of gaps between consecutive
time-sorted events landing on `d`, discarding every single gap that
reaches the threshold. -/
def day_hours_spec (acts : List ActivityEvent) (d : ℤ) : ℚ :=
  (((sort_by_time acts).zip (sort_by_time acts).tail).map
    (fun pc =>
      if calendar_day pc.2.timestamp = d ∧ gap_hours pc.1 pc.2 < max_daily_hours
      then gap_hours pc.1 pc.2 else 0)).sum

/-- Spec side: the distinct excessive days, each counted once. -/
def excessive_days_spec (acts : List ActivityEvent) : List ℤ :=
  ((((sort_by_time acts).zip (sort_by_time acts).tail).map
    (fun pc => calendar_day pc.2.timestamp)).dedup).filter
      (fun d => decide (max_daily_hours < day_hours_spec acts d))

/-- Spec side: the average accumulated hours over the excessive days. -/
def avg_excessive_spec (acts : List ActivityEvent) : ℚ :=
  list_mean ((excessive_days_spec acts).map (day_hours_spec acts))

/-- Lookup with default 0 in the accumulated per-day map. -/
def al_get (d : ℤ) : List (ℤ × ℚ) → ℚ
  | [] => 0
  | (d0, h) :: rest => if d0 = d then h else al_get d rest

theorem al_get_add_daily_hours (d d0 : ℤ) (v : ℚ) (m : List (ℤ × ℚ)) :
    al_get d (add_daily_hours d0 v m) =
      al_get d m + (if d0 = d then v else 0) := by
  induction m with
  | nil =>
    by_cases h : d0 = d
    · simp [add_daily_hours, al_get, h]
    · simp [add_daily_hours, al_get, h]
  | cons e rest ih =>
    obtain ⟨d1, h1⟩ := e
    by_cases h10 : d1 = d0
    · subst h10
      by_cases h1d : d1 = d
      · simp [add_daily_hours, al_get, h1d]
      · simp [add_daily_hours, al_get, h1d]
    · by_cases h1d : d1 = d
      · subst h1d
        have : ¬(d0 = d1) := fun hh => h10 hh.symm
        simp [add_daily_hours, al_get, h10, this]
      · simp [add_daily_hours, al_get, h10, h1d, ih]

theorem keys_mem_add_daily_hours (d d0 : ℤ) (v : ℚ) (m : List (ℤ × ℚ)) :
    d ∈ (add_daily_hours d0 v m).map Prod.fst ↔
      d = d0 ∨ d ∈ m.map Prod.fst := by
  induction m with
  | nil => simp [add_daily_hours, eq_comm]
  | cons e rest ih =>
    obtain ⟨d1, h1⟩ := e
    by_cases h10 : d1 = d0
    · subst h10
      simp [add_daily_hours]
    · simp [add_daily_hours, h10, ih]
      tauto

theorem keys_nodup_add_daily_hours (d0 : ℤ) (v : ℚ) (m : List (ℤ × ℚ))
    (hm : (m.map Prod.fst).Nodup) :
    ((add_daily_hours d0 v m).map Prod.fst).Nodup := by
  induction m with
  | nil => simp [add_daily_hours]
  | cons e rest ih =>
    obtain ⟨d1, h1⟩ := e
    simp only [List.map_cons, List.nodup_cons] at hm
    by_cases h10 : d1 = d0
    · subst h10
      simpa [add_daily_hours, List.nodup_cons] using hm
    · have hrec := ih hm.2
      simp only [add_daily_hours, if_neg h10, List.map_cons, List.nodup_cons]
      refine ⟨?_, hrec⟩
      rw [keys_mem_add_daily_hours]
      push_neg
      exact ⟨h10, hm.1⟩

theorem al_get_eq_zero_of_not_mem_keys (d : ℤ) (m : List (ℤ × ℚ))
    (h : d ∉ m.map Prod.fst) : al_get d m = 0 := by
  induction m with
  | nil => rfl
  | cons e rest ih =>
    obtain ⟨d0, h0⟩ := e
    simp only [List.map_cons, List.mem_cons] at h
    push_neg at h
    have : d0 ≠ d := fun hh => h.1 hh.symm
    simp [al_get, this, ih h.2]

theorem snd_eq_al_get_of_mem (m : List (ℤ × ℚ))
    (hm : (m.map Prod.fst).Nodup) :
    ∀ e ∈ m, e.2 = al_get e.1 m := by
  induction m with
  | nil => intro e he; cases he
  | cons a rest ih =>
    obtain ⟨d0, h0⟩ := a
    simp only [List.map_cons, List.nodup_cons] at hm
    intro e he
    rcases List.mem_cons.mp he with h | h
    · subst h
      simp [al_get]
    · have hne : d0 ≠ e.1 := by
        intro hh
        exact hm.1 (hh ▸ (List.mem_map.mpr ⟨e, h, rfl⟩))
      simp only [al_get, if_neg hne]
      exact ih hm.2 e h

theorem mem_keys_exists_pair (d : ℤ) (m : List (ℤ × ℚ))
    (h : d ∈ m.map Prod.fst) : ∃ h0, (d, h0) ∈ m := by
  rcases List.mem_map.mp h with ⟨e, he, hfst⟩
  exact ⟨e.2, by rwa [← hfst, Prod.mk.eta] ⟩

/-- The contribution of one consecutive pair to a given calendar day. -/
def pair_contrib (d : ℤ) (pc : ActivityEvent × ActivityEvent) : ℚ :=
  if calendar_day pc.2.timestamp = d ∧ gap_hours pc.1 pc.2 < max_daily_hours
  then gap_hours pc.1 pc.2 else 0

theorem day_hours_spec_eq_sum (acts : List ActivityEvent) (d : ℤ) :
    day_hours_spec acts d =
      (((sort_by_time acts).zip (sort_by_time acts).tail).map (pair_contrib d)).sum :=
  rfl

theorem al_get_daily_hours_from (pairs : List (ActivityEvent × ActivityEvent))
    (m : List (ℤ × ℚ)) (d : ℤ) :
    al_get d (daily_hours_from m pairs) =
      al_get d m + (pairs.map (pair_contrib d)).sum := by
  induction pairs generalizing m with
  | nil => simp [daily_hours_from]
  | cons pc ps ih =>
    have hstep :
        daily_hours_from m (pc :: ps) =
          daily_hours_from
            (if gap_hours pc.1 pc.2 < max_daily_hours then
              add_daily_hours (calendar_day pc.2.timestamp) (gap_hours pc.1 pc.2) m
            else m) ps := by
      simp only [daily_hours_from, List.foldl_cons]
    rw [hstep, ih]
    by_cases hg : gap_hours pc.1 pc.2 < max_daily_hours
    · rw [if_pos hg, al_get_add_daily_hours]
      by_cases hd : calendar_day pc.2.timestamp = d
      · simp [pair_contrib, hd, hg]
        ring
      · simp [pair_contrib, hd, hg]
    · rw [if_neg hg]
      simp [pair_contrib, hg]

theorem keys_nodup_daily_hours_from (pairs : List (ActivityEvent × ActivityEvent))
    (m : List (ℤ × ℚ)) (hm : (m.map Prod.fst).Nodup) :
    ((daily_hours_from m pairs).map Prod.fst).Nodup := by
  induction pairs generalizing m with
  | nil => exact hm
  | cons pc ps ih =>
    have hstep :
        daily_hours_from m (pc :: ps) =
          daily_hours_from
            (if gap_hours pc.1 pc.2 < max_daily_hours then
              add_daily_hours (calendar_day pc.2.timestamp) (gap_hours pc.1 pc.2) m
            else m) ps := by
      simp only [daily_hours_from, List.foldl_cons]
    rw [hstep]
    by_cases hg : gap_hours pc.1 pc.2 < max_daily_hours
    · rw [if_pos hg]
      exact ih _ (keys_nodup_add_daily_hours _ _ _ hm)
    · rw [if_neg hg]
      exact ih _ hm

theorem spec_pos_mem_days (acts : List ActivityEvent) (d : ℤ)
    (h : day_hours_spec acts d ≠ 0) :
    d ∈ ((sort_by_time acts).zip (sort_by_time acts).tail).map
      (fun pc => calendar_day pc.2.timestamp) := by
  rw [day_hours_spec_eq_sum] at h
  by_contra hmem
  apply h
  apply List.sum_eq_zero
  intro x hx
  rcases List.mem_map.mp hx with ⟨pc, hpc, hval⟩
  rcases eq_or_ne (calendar_day pc.2.timestamp) d with hd | hd
  · exact absurd (List.mem_map.mpr ⟨pc, hpc, hd⟩) hmem
  · rw [← hval]
    simp [pair_contrib, hd]

/-- Claim C9 — the excessive-time check.  No concern is returned exactly
when no calendar day accumulates strictly more than the threshold of
qualifying gaps, and a returned concern is the `excessive_time` concern
with severity `min((avg excessive-day hours − threshold)/threshold, 1)`,
where the average ranges over the distinct excessive days. -/
theorem excessiveTime_check_c9 (acts : List ActivityEvent) :
    (check_excessive_time acts = none ↔
      ∀ d : ℤ, day_hours_spec acts d ≤ max_daily_hours) ∧
    (∀ c : WellbeingConcern, check_excessive_time acts = some c →
      c.concern_type = "excessive_time" ∧
      c.severity =
        min ((avg_excessive_spec acts - max_daily_hours) / max_daily_hours) 1) := by
  have hval : ∀ d : ℤ,
      al_get d (daily_hours_from []
        ((sort_by_time acts).zip (sort_by_time acts).tail)) =
        day_hours_spec acts d := by
    intro d
    rw [al_get_daily_hours_from, day_hours_spec_eq_sum]
    simp [al_get]
  have hnd :
      ((daily_hours_from []
        ((sort_by_time acts).zip (sort_by_time acts).tail)).map Prod.fst).Nodup :=
    keys_nodup_daily_hours_from _ [] (by simp)
  set daily := daily_hours_from []
    ((sort_by_time acts).zip (sort_by_time acts).tail) with hdaily
  set excessive := daily.filter (fun e => decide (max_daily_hours < e.2))
    with hexcessive
  have hsnd : ∀ e ∈ excessive, e.2 = day_hours_spec acts e.1 := by
    intro e he
    have hd : e ∈ daily := List.mem_of_mem_filter he
    rw [snd_eq_al_get_of_mem daily hnd e hd, hval]
  have hmem_exc : ∀ d : ℤ,
      (∃ h0 : ℚ, (d, h0) ∈ excessive) ↔
        max_daily_hours < day_hours_spec acts d := by
    intro d
    constructor
    · rintro ⟨h0, hh⟩
      have h2 := hsnd (d, h0) hh
      have h3 := List.of_mem_filter hh
      simp only [decide_eq_true_eq] at h3
      have h2' : h0 = day_hours_spec acts d := h2
      rwa [h2'] at h3
    · intro hgt
      have hne : day_hours_spec acts d ≠ 0 := by
        have : (0 : ℚ) < day_hours_spec acts d := lt_trans (by norm_num [max_daily_hours]) hgt
        exact ne_of_gt this
      have hkey : d ∈ daily.map Prod.fst := by
        by_contra hk
        exact hne (by rw [← hval d]; exact al_get_eq_zero_of_not_mem_keys d daily hk)
      rcases mem_keys_exists_pair d daily hkey with ⟨h0, hpair⟩
      refine ⟨h0, List.mem_filter.mpr ⟨hpair, ?_⟩⟩
      have : h0 = day_hours_spec acts d := by
        have := snd_eq_al_get_of_mem daily hnd (d, h0) hpair
        rwa [hval] at this
      simp only [decide_eq_true_eq, this]
      exact hgt
  have hcheck : check_excessive_time acts =
      (if excessive = [] then none
       else some ⟨"excessive_time",
        min ((list_mean (excessive.map Prod.snd) - max_daily_hours) /
          max_daily_hours) 1⟩) := by
    rfl
  have hempty : excessive = [] ↔
      ∀ d : ℤ, day_hours_spec acts d ≤ max_daily_hours := by
    constructor
    · intro he d
      by_contra hgt
      push_neg at hgt
      rcases (hmem_exc d).mpr hgt with ⟨h0, hh⟩
      rw [he] at hh
      cases hh
    · intro hall
      rcases eq_or_ne excessive [] with h | h
      · exact h
      · rcases List.exists_mem_of_ne_nil excessive h with ⟨e, he⟩
        have : max_daily_hours < day_hours_spec acts e.1 :=
          (hmem_exc e.1).mp ⟨e.2, by simpa using he⟩
        exact absurd this (not_lt.mpr (hall e.1))
  constructor
  · rw [hcheck]
    constructor
    · intro hnone
      by_contra hall
      push_neg at hall
      rcases hall with ⟨d, hd⟩
      have hne : excessive ≠ [] := by
        intro he
        exact absurd ((hempty.mp he) d) (not_le.mpr hd)
      rw [if_neg hne] at hnone
      cases hnone
    · intro hall
      rw [if_pos (hempty.mpr hall)]
  · intro c hc
    rw [hcheck] at hc
    rcases eq_or_ne excessive [] with he | he
    · rw [if_pos he] at hc
      cases hc
    · rw [if_neg he] at hc
      have hc' := (Option.some_inj.mp hc).symm
      have havg : list_mean (excessive.map Prod.snd) = avg_excessive_spec acts := by
        have hmap1 : excessive.map Prod.snd =
            excessive.map (fun e => day_hours_spec acts e.1) :=
          List.map_congr_left hsnd
        have hmap2 : excessive.map (fun e => day_hours_spec acts e.1) =
            (excessive.map Prod.fst).map (day_hours_spec acts) := by
          rw [List.map_map]
          rfl
        have hndE : (excessive.map Prod.fst).Nodup :=
          hnd.sublist ((List.filter_sublist daily).map Prod.fst)
        have hndeds : (excessive_days_spec acts).Nodup :=
          List.Nodup.filter _ (List.nodup_dedup _)
        have hmemE : ∀ d : ℤ, d ∈ excessive.map Prod.fst ↔
            max_daily_hours < day_hours_spec acts d := by
          intro d
          rw [← hmem_exc d]
          constructor
          · intro hd
            rcases mem_keys_exists_pair d excessive hd with ⟨h0, hp⟩
            exact ⟨h0, hp⟩
          · rintro ⟨h0, hp⟩
            exact List.mem_map.mpr ⟨(d, h0), hp, rfl⟩
        have hmemeds : ∀ d : ℤ, d ∈ excessive_days_spec acts ↔
            max_daily_hours < day_hours_spec acts d := by
          intro d
          unfold excessive_days_spec
          rw [List.mem_filter]
          constructor
          · intro hd
            simpa using hd.2
          · intro hd
            refine ⟨List.mem_dedup.mpr ?_, by simpa using hd⟩
            refine spec_pos_mem_days acts d (ne_of_gt ?_)
            exact lt_trans (by norm_num [max_daily_hours]) hd
        have hperm : (excessive.map Prod.fst).Perm (excessive_days_spec acts) :=
          (List.perm_ext_iff_of_nodup hndE hndeds).mpr
            (fun d => (hmemE d).trans (hmemeds d).symm)
        have hpermv : ((excessive.map Prod.fst).map (day_hours_spec acts)).Perm
            ((excessive_days_spec acts).map (day_hours_spec acts)) :=
          hperm.map _
        unfold avg_excessive_spec list_mean
        rw [hmap1, hmap2, hpermv.sum_eq, hpermv.length_eq]
      subst hc'
      refine ⟨rfl, ?_⟩
      show min ((list_mean (excessive.map Prod.snd) - max_daily_hours) /
        max_daily_hours) 1 =
        min ((avg_excessive_spec acts - max_daily_hours) / max_daily_hours) 1
      rw [havg]

theorem excessiveTime_check_c9_witness :
    check_excessive_time [⟨0, 1⟩, ⟨36000, 1⟩] = none :=
  (excessiveTime_check_c9 [⟨0, 1⟩, ⟨36000, 1⟩]).1.mpr (by
    intro d
    norm_num [day_hours_spec, sort_by_time, sort_by, insert_sorted, gap_hours,
      max_daily_hours])

/-- Claim C8 (amended) — for a fixed call instant the wellbeing assessment
is a pure function of the user id, the activity history and the window
length: any two profiles agreeing on id and history (whatever their other
fields) are assessed identically.  The frozen claim fails because the
output also depends on the wall clock, see the counterexample. -/
theorem wellbeing_pure_c8 (now : ℚ) (recent_days : ℕ) (u1 u2 : InternalProfile)
    (hid : u1.user_id = u2.user_id)
    (hhist : u1.activity_history = u2.activity_history) :
    assess_wellbeing now u1 recent_days = assess_wellbeing now u2 recent_days := by
  unfold assess_wellbeing
  rw [hid, hhist]

theorem wellbeing_pure_c8_witness :
    assess_wellbeing 0 ⟨"w8", [⟨0, 1⟩], []⟩ 7 =
      assess_wellbeing 0
        ⟨"w8", [⟨0, 1⟩], [(CapabilityDimension.creativity, ⟨1, 1, 1⟩)]⟩ 7 :=
  wellbeing_pure_c8 0 7 _ _ rfl rfl

/-- Claim C8, as frozen, is false: the assessment is not a pure function of
history and window — `datetime.now()` enters both the output timestamp and
the recency cutoff.  Concrete run: the same user, history unchanged,
assessed at two different instants, yields two different assessments (here
even different overall scores: three events with two 3-hour gaps exceed
the 4-hour day inside the window, and fall out of it later). -/
theorem wellbeing_pure_c8_counterexample :
    assess_wellbeing 172800 ⟨"u", [⟨0, 1⟩, ⟨10800, 1⟩, ⟨21600, 1⟩], []⟩ 7 ≠
      assess_wellbeing 1728000 ⟨"u", [⟨0, 1⟩, ⟨10800, 1⟩, ⟨21600, 1⟩], []⟩ 7 ∧
    (assess_wellbeing 172800 ⟨"u", [⟨0, 1⟩, ⟨10800, 1⟩, ⟨21600, 1⟩], []⟩ 7).overall_score ≠
      (assess_wellbeing 1728000 ⟨"u", [⟨0, 1⟩, ⟨10800, 1⟩, ⟨21600, 1⟩], []⟩ 7).overall_score := by
  have h1 : (assess_wellbeing 172800 ⟨"u", [⟨0, 1⟩, ⟨10800, 1⟩, ⟨21600, 1⟩], []⟩ 7).overall_score
      = 1/2 := by
    have hd1 : calendar_day 10800 = 0 := by
      norm_num [calendar_day, Int.floor_eq_iff]
    have hd2 : calendar_day 21600 = 0 := by
      norm_num [calendar_day, Int.floor_eq_iff]
    norm_num [assess_wellbeing, check_excessive_time, sort_by_time, sort_by,
      insert_sorted, daily_hours_from, gap_hours, add_daily_hours, hd1, hd2,
      max_daily_hours, list_mean]
  have h2 : (assess_wellbeing 1728000 ⟨"u", [⟨0, 1⟩, ⟨10800, 1⟩, ⟨21600, 1⟩], []⟩ 7).overall_score
      = 1 := by
    norm_num [assess_wellbeing, check_excessive_time, sort_by_time, sort_by,
      insert_sorted, daily_hours_from, max_daily_hours, list_mean]
  refine ⟨?_, ?_⟩
  · intro h
    rw [congrArg WellbeingAssessment.overall_score h, h2] at h1
    norm_num at h1
  · rw [h1, h2]
    norm_num

/-- A discovered behavior pattern, `models.BehaviorPattern`, restricted to
the fields `validate_pattern` reads. -/
structure BehaviorPattern where
  pattern_id : String
  pattern_name : String
  description : String
deriving DecidableEq

/-- `models.PatternValidationResult`. -/
structure PatternValidationResult where
  pattern_id : String
  is_valid : Bool
  temporal_stability_score : ℚ
  distinctiveness_score : ℚ
  predictive_validity : ℚ
  sample_size : ℕ
  confidence_level : ℚ
  is_interpretable : Bool
  human_readable_description : String
deriving DecidableEq

/-- The validator configuration (`PatternValidator.__init__` defaults:
30, 0.95, 30). -/
structure PatternValidator where
  min_sample_size : ℕ
  required_confidence : ℚ
  temporal_window_days : ℕ
deriving DecidableEq

/-- The expression `CapabilityEstimate(mean=0.0)` inside
`_test_distinctiveness`: the dataclass declares `mean`, `variance` and
`confidence` without defaults, so this call raises
`TypeError: __init__() missing 2 required positional arguments` the moment
the `dict.get` default argument is evaluated.  Modelled as a failing
constructor call. -/
def capability_estimate_mean_only : Except String CapabilityEstimate :=
  .error "TypeError: CapabilityEstimate() missing required arguments variance and confidence"

/-- `PatternValidator._test_temporal_stability`. -/
def test_temporal_stability (cluster_users : List InternalProfile) : ℚ :=
  if cluster_users = [] then 0
  else
    let stability_scores := cluster_users.filterMap (fun user =>
      let history := sort_by_time user.activity_history
      if history.length < 2 then none
      else
        let midpoint := history.length / 2
        let first_half :=
          list_mean ((history.take midpoint).map ActivityEvent.engagement_level)
        let second_half :=
          list_mean ((history.drop midpoint).map ActivityEvent.engagement_level)
        some (1 - |first_half - second_half|))
    if stability_scores = [] then 0 else list_mean stability_scores

/-- `capability_scores.get(dimension, default)` with the default already
evaluated, as Python evaluates it eagerly. -/
def get_capability (scores : List (CapabilityDimension × CapabilityEstimate))
    (dim : CapabilityDimension) (dflt : CapabilityEstimate) : CapabilityEstimate :=
  match scores with
  | [] => dflt
  | (d, e) :: rest => if d = dim then e else get_capability rest dim dflt

/-- `PatternValidator._test_distinctiveness`: compares average creativity of
the cluster against the population.  Its default-argument expression
raises, so the whole call errors whenever both lists are non-empty. -/
def test_distinctiveness (cluster_users all_users : List InternalProfile) :
    Except String ℚ :=
  if cluster_users = [] ∨ all_users = [] then .ok 0
  else
    match capability_estimate_mean_only with
    | .error e => .error e
    | .ok dflt =>
      .ok |list_mean (cluster_users.map (fun u =>
            (get_capability u.capability_scores CapabilityDimension.creativity dflt).mean)) -
          list_mean (all_users.map (fun u =>
            (get_capability u.capability_scores CapabilityDimension.creativity dflt).mean))|

/-- `PatternValidator._test_predictive_validity`. -/
def test_predictive_validity (cluster_users : List InternalProfile) : ℚ :=
  if cluster_users = [] then 0
  else
    let engagement_trends := cluster_users.filterMap (fun user =>
      let history := sort_by_time user.activity_history
      if history.length < 10 then none
      else
        let recent := list_mean
          ((history.drop (history.length - 5)).map ActivityEvent.engagement_level)
        let past := list_mean ((history.take 5).map ActivityEvent.engagement_level)
        some (if past ≤ recent then (1 : ℚ) else 0))
    if engagement_trends = [] then 0 else list_mean engagement_trends

/-- `PatternValidator._test_interpretability`. -/
def test_interpretability (pattern : BehaviorPattern) : Bool × String :=
  let description :=
    if pattern.description = "" then "A pattern related to " ++ pattern.pattern_name
    else pattern.description
  (decide (description ≠ ""), description)

/-- `PatternValidator.validate_pattern`; an uncaught Python exception is an
`Except.error`. -/
def validate_pattern (v : PatternValidator) (pattern : BehaviorPattern)
    (cluster_users all_users : List InternalProfile) :
    Except String PatternValidationResult :=
  if cluster_users.length < v.min_sample_size then
    .ok { pattern_id := pattern.pattern_id
          is_valid := false
          human_readable_description := "Insufficient sample size"
          temporal_stability_score := 0
          distinctiveness_score := 0
          predictive_validity := 0
          sample_size := cluster_users.length
          confidence_level := 0
          is_interpretable := false }
  else
    let stability_score := test_temporal_stability cluster_users
    match test_distinctiveness cluster_users all_users with
    | .error e => .error e
    | .ok distinctiveness_score =>
      let predictive_score := test_predictive_validity cluster_users
      let interp := test_interpretability pattern
      let is_valid := decide ((0.7 : ℚ) < stability_score) &&
        decide ((0.8 : ℚ) < distinctiveness_score) &&
        decide ((0.6 : ℚ) < predictive_score) && interp.1
      .ok { pattern_id := pattern.pattern_id
            is_valid := is_valid
            temporal_stability_score := stability_score
            distinctiveness_score := distinctiveness_score
            predictive_validity := predictive_score
            sample_size := cluster_users.length
            confidence_level := v.required_confidence
            is_interpretable := interp.1
            human_readable_description := interp.2 }

/-- Claim C1 — `validate_pattern` on a cluster of at least the minimum
sample size with a non-empty population never returns the claimed result:
it always raises `TypeError`, because `_test_distinctiveness` evaluates the
constructor call `CapabilityEstimate(mean=0.0)` whose dataclass requires
`variance` and `confidence` as well. -/
theorem validatePattern_raises_c1 (v : PatternValidator) (pattern : BehaviorPattern)
    (cluster_users all_users : List InternalProfile)
    (hcluster : cluster_users ≠ []) (hall : all_users ≠ [])
    (hsize : v.min_sample_size ≤ cluster_users.length) :
    validate_pattern v pattern cluster_users all_users =
      .error "TypeError: CapabilityEstimate() missing required arguments variance and confidence" := by
  have hdist : test_distinctiveness cluster_users all_users =
      .error "TypeError: CapabilityEstimate() missing required arguments variance and confidence" := by
    unfold test_distinctiveness
    rw [if_neg (by push_neg; exact ⟨hcluster, hall⟩)]
    rfl
  unfold validate_pattern
  rw [if_neg (not_lt.mpr hsize), hdist]

theorem validatePattern_raises_c1_witness :
    validate_pattern ⟨1, 0.95, 30⟩ ⟨"cluster_0", "Pattern 0", "d"⟩
      [⟨"u1", [], []⟩] [⟨"u1", [], []⟩] =
      .error "TypeError: CapabilityEstimate() missing required arguments variance and confidence" :=
  validatePattern_raises_c1 ⟨1, 0.95, 30⟩ ⟨"cluster_0", "Pattern 0", "d"⟩
    [⟨"u1", [], []⟩] [⟨"u1", [], []⟩]
    (List.cons_ne_nil _ _) (List.cons_ne_nil _ _) (by norm_num)

/-- `np.std`: the square root of the mean squared deviation. -/
noncomputable def list_std (l : List ℝ) : ℝ :=
  Real.sqrt (list_mean (l.map (fun x => (x - list_mean l) ^ 2)))

/-- Per-user fraud-detection state, `models.ActivityProfile`.  Intervals
are real numbers because the regularity check feeds them through `np.std`. -/
structure ActivityProfile where
  user_id : String
  last_activity_time : ℚ
  activity_intervals : List ℝ
  activity_times : List ℚ
  hour_distribution : List (ℤ × ℚ)

/-- `ActivityProfile.get_typical_activity_hours`: hours with more than 10%
frequency. -/
def get_typical_activity_hours (p : ActivityProfile) : List ℤ :=
  (p.hour_distribution.filter (fun e => decide ((0.1 : ℚ) < e.2))).map Prod.fst

/-- The hour of the day of a timestamp (`timestamp.hour`). -/
def hour_of (ts : ℚ) : ℤ := ⌊ts / 3600⌋ % 24

/-- `self.user_activity_profiles.get(user_id)`. -/
def lookup_profile (uid : String) :
    List (String × ActivityProfile) → Option ActivityProfile
  | [] => none
  | (u, p) :: rest => if u = uid then some p else lookup_profile uid rest

/-- The request context consumed by the fraud checks: mouse points, typing
key intervals (empty when `typing_pattern` is absent), and the SHA-256
device fingerprint of `{user_agent, screen_resolution, timezone}` passed in
precomputed. -/
structure FraudContext where
  mouse_movements : List (ℝ × ℝ)
  key_intervals : List ℝ
  fingerprint : String

/-- `FraudDetector._check_velocity` (`min_time_required = 1`). -/
def check_velocity (profiles : List (String × ActivityProfile)) (uid : String)
    (activity : ActivityEvent) : Option FraudSignal :=
  match lookup_profile uid profiles with
  | none => none
  | some profile =>
    let time_since_last := activity.timestamp - profile.last_activity_time
    if time_since_last < 1 * 0.5 then some ⟨"velocity_violation", 0.7⟩ else none

open Classical in
/-- `FraudDetector._check_pattern_regularity`: coefficient of variation of
the most recent 20 stored intervals, 0 substituted when the mean is not
positive. -/
noncomputable def check_pattern_regularity
    (profiles : List (String × ActivityProfile)) (uid : String) :
    Option FraudSignal :=
  match lookup_profile uid profiles with
  | none => none
  | some profile =>
    if profile.activity_intervals.length < 10 then none
    else
      let intervals := profile.activity_intervals.drop
        (profile.activity_intervals.length - 20)
      let cv := if 0 < list_mean intervals
        then list_std intervals / list_mean intervals else 0
      if cv < 0.15 then some ⟨"pattern_too_regular", 0.6⟩ else none

open Classical in
/-- `FraudDetector._calculate_path_straightness`. -/
noncomputable def path_straightness (mouse_movements : List (ℝ × ℝ)) : ℝ :=
  if mouse_movements.length < 3 then 0.5
  else
    let path_length := ((mouse_movements.zip mouse_movements.tail).map
      (fun pq => Real.sqrt ((pq.2.1 - pq.1.1) ^ 2 + (pq.2.2 - pq.1.2) ^ 2))).sum
    let direct_distance := Real.sqrt
      (((mouse_movements.getLastD (0, 0)).1 - (mouse_movements.headD (0, 0)).1) ^ 2 +
       ((mouse_movements.getLastD (0, 0)).2 - (mouse_movements.headD (0, 0)).2) ^ 2)
    if 0 < path_length then direct_distance / path_length else 0.5

open Classical in
/-- `FraudDetector._check_behavioral_biometrics`.  The typing branch keeps
the `list_mean ≠ 0` conjunct because with a zero mean the float division
yields NaN (or infinity), which compares false against 0.2 in the source. -/
noncomputable def check_behavioral_biometrics (context : FraudContext) :
    Option FraudSignal :=
  let mouse_flag := 5 < context.mouse_movements.length ∧
    0.95 < path_straightness context.mouse_movements
  let typing_flag := 10 < context.key_intervals.length ∧
    list_mean context.key_intervals ≠ 0 ∧
    list_std context.key_intervals / list_mean context.key_intervals < 0.2
  if mouse_flag ∨ typing_flag then some ⟨"biometric_anomaly", 0.5⟩ else none

/-- `FraudDetector._check_temporal_anomaly`. -/
def check_temporal_anomaly (profiles : List (String × ActivityProfile))
    (uid : String) (activity : ActivityEvent) : Option FraudSignal :=
  match lookup_profile uid profiles with
  | none => none
  | some profile =>
    if profile.activity_times.length < 20 then none
    else
      let typical_hours := get_typical_activity_hours profile
      let current_hour := hour_of activity.timestamp
      if current_hour ∉ typical_hours then
        if al_get current_hour profile.hour_distribution < 0.05 then
          some ⟨"temporal_anomaly", 0.4⟩
        else none
      else none

/-- The mutable per-detector state read and written along the assessed
path (`social_graph` and `rating_history` are never touched by it and are
elided). -/
structure DetectorState where
  user_activity_profiles : List (String × ActivityProfile)
  device_fingerprints : DeviceDB

/-- `FraudDetector.assess_activity_authenticity`, state passed explicitly:
runs the five checks in source order, aggregates the risk and returns the
assessment together with the updated state. -/
noncomputable def assess_activity_authenticity (state : DetectorState)
    (user_id : String) (activity : ActivityEvent) (context : FraudContext) :
    FraudAssessment × DetectorState :=
  let s1 := check_velocity state.user_activity_profiles user_id activity
  let s2 := check_pattern_regularity state.user_activity_profiles user_id
  let s3 := check_behavioral_biometrics context
  let s4 := check_temporal_anomaly state.user_activity_profiles user_id activity
  let dres := check_device_fingerprint user_id context.fingerprint
    state.device_fingerprints
  let signals := ([s1, s2, s3, s4, dres.1]).filterMap id
  let risk_score := calculate_risk_score signals
  (⟨decide ((0.5 : ℚ) < risk_score), risk_score, signals,
    recommendation_for risk_score⟩,
   ⟨state.user_activity_profiles, dres.2⟩)

/-- Claim C4 — after `assess_activity_authenticity` the activity-profile
store is bit-for-bit unchanged, for every state and input: the source only
reads `user_activity_profiles` and never writes it, so the assessed event
is never incorporated; concretely, a fresh detector still has no profile
for the user after assessing the event. -/
theorem activityProfile_never_updated_c4 :
    (∀ (state : DetectorState) (user_id : String) (activity : ActivityEvent)
      (context : FraudContext),
      (assess_activity_authenticity state user_id activity context).2.user_activity_profiles =
        state.user_activity_profiles) ∧
    lookup_profile "u"
      (assess_activity_authenticity ⟨[], []⟩ "u" ⟨0, 1⟩ ⟨[], [], "d"⟩).2.user_activity_profiles =
      none :=
  ⟨fun _ _ _ _ => rfl, rfl⟩

/-- Claim C10 — when the stored interval list has at least 10 entries and
the mean of the most recent 20 is not positive, the regularity check
substitutes a coefficient of variation of 0 and therefore returns the
`pattern_too_regular` signal of severity 0.6. -/
theorem patternRegularity_zero_mean_c10
    (profiles : List (String × ActivityProfile)) (uid : String)
    (profile : ActivityProfile)
    (hfind : lookup_profile uid profiles = some profile)
    (hlen : 10 ≤ profile.activity_intervals.length)
    (hmean : list_mean (profile.activity_intervals.drop
      (profile.activity_intervals.length - 20)) ≤ 0) :
    check_pattern_regularity profiles uid = some ⟨"pattern_too_regular", 0.6⟩ := by
  have hlen' : ¬(profile.activity_intervals.length < 10) := not_lt.mpr hlen
  have hmean' : ¬(0 < list_mean (profile.activity_intervals.drop
      (profile.activity_intervals.length - 20))) := not_lt.mpr hmean
  norm_num [check_pattern_regularity, hfind, hlen', hmean']

theorem patternRegularity_zero_mean_c10_witness :
    check_pattern_regularity [("u", ⟨"u", 0, List.replicate 10 0, [], []⟩)] "u" =
      some ⟨"pattern_too_regular", 0.6⟩ :=
  patternRegularity_zero_mean_c10 [("u", ⟨"u", 0, List.replicate 10 0, [], []⟩)]
    "u" ⟨"u", 0, List.replicate 10 0, [], []⟩ (by simp [lookup_profile])
    (by simp) (by simp [list_mean])

theorem list_mean_replicate_one (n : ℕ) (hn : n ≠ 0) :
    list_mean (List.replicate n (1 : ℝ)) = 1 := by
  simp only [list_mean, List.sum_replicate, List.length_replicate, nsmul_eq_mul,
    mul_one]
  rw [div_self]
  exact_mod_cast hn

theorem list_std_replicate_one (n : ℕ) (hn : n ≠ 0) :
    list_std (List.replicate n (1 : ℝ)) = 0 := by
  simp only [list_std, list_mean_replicate_one n hn, List.map_replicate]
  norm_num [list_mean, List.sum_replicate]

/-- Claim C6 (amended) — the behavioral-biometric check returns exactly one
signal, of severity 0.5, precisely when a supplied modality is flagged:
path straightness above 0.95 over strictly more than 5 mouse points, or
typing coefficient of variation below 0.2 over strictly more than 10 key
intervals; otherwise no signal.  The frozen claim said at least 5 points
and at least 10 intervals suffice; the source requires at least 6 and 11,
see the counterexample. -/
theorem biometric_check_c6 (context : FraudContext) :
    ((5 < context.mouse_movements.length ∧
        0.95 < path_straightness context.mouse_movements) ∨
      (10 < context.key_intervals.length ∧
        list_mean context.key_intervals ≠ 0 ∧
        list_std context.key_intervals / list_mean context.key_intervals < 0.2) →
      check_behavioral_biometrics context = some ⟨"biometric_anomaly", 0.5⟩) ∧
    (¬((5 < context.mouse_movements.length ∧
        0.95 < path_straightness context.mouse_movements) ∨
      (10 < context.key_intervals.length ∧
        list_mean context.key_intervals ≠ 0 ∧
        list_std context.key_intervals / list_mean context.key_intervals < 0.2)) →
      check_behavioral_biometrics context = none) := by
  constructor
  · intro h
    simp only [check_behavioral_biometrics]
    rw [if_pos h]
  · intro h
    simp only [check_behavioral_biometrics]
    rw [if_neg h]

theorem biometric_check_c6_witness :
    check_behavioral_biometrics ⟨[], List.replicate 11 1, "d"⟩ =
      some ⟨"biometric_anomaly", 0.5⟩ :=
  (biometric_check_c6 ⟨[], List.replicate 11 1, "d"⟩).1
    (Or.inr ⟨by norm_num,
      by rw [list_mean_replicate_one 11 (by norm_num)]; norm_num,
      by rw [list_std_replicate_one 11 (by norm_num),
             list_mean_replicate_one 11 (by norm_num)]; norm_num⟩)

/-- Claim C6, as frozen, is false at the boundary: a context with exactly
10 equal key intervals has at least 10 intervals and a coefficient of
variation of 0 (below 0.2), so the claim demands a severity-0.5 signal,
but the source requires strictly more than 10 intervals and returns no
signal. -/
theorem biometric_check_c6_counterexample :
    (10 : ℕ) ≤ (List.replicate 10 (1 : ℝ)).length ∧
    list_std (List.replicate 10 (1 : ℝ)) /
      list_mean (List.replicate 10 (1 : ℝ)) < 0.2 ∧
    check_behavioral_biometrics ⟨[], List.replicate 10 1, "d"⟩ = none := by
  refine ⟨by norm_num, ?_, ?_⟩
  · rw [list_std_replicate_one 10 (by norm_num),
      list_mean_replicate_one 10 (by norm_num)]
    norm_num
  · simp only [check_behavioral_biometrics]
    rw [if_neg]
    rintro (⟨h5, _⟩ | ⟨h10, _⟩)
    · simp at h5
    · simp at h10
